import Mathlib

/-!
Verification of the client-side session/state controller of the ai_interviewer
web client (src/script.js): the conversational exchange loop, the recording
controller, the screen/section navigator, the session store, and the two pure
text utilities (escapeHtml, useGeneratedPaper).

Each definition below is a shallow embedding of the correspondingly named
function in src/script.js.  DOM rendering calls (addTranscript, addChatMessage,
speakText, updateStats, showToast) mutate only display surfaces and are omitted
from the modelled state; remote calls are modelled by an explicit outcome value
passed in, since the client treats the server as an external collaborator.
-/

namespace AiInterviewer

/-- One entry of the global conversationHistory array in src/script.js:
an object with fields role ("user" or "assistant") and content. -/
structure Turn where
  role : String
  content : String
deriving DecidableEq, Repr

/-- Outcome of the fetch to /api/generate as observed inside callGeminiAPI
(src/script.js lines 827-851): a successful response carrying the generated
text, a response with a non-ok HTTP status, or a rejected promise
(network/transport failure whose message reaches the catch block). -/
inductive ApiOutcome where
  | ok (text : String)
  | httpError (errMsg : String)
  | reject (errMsg : String)
deriving DecidableEq, Repr

/-- The fixed fallback apology returned by callGeminiAPI on both failure
paths (src/script.js lines 843 and 849). -/
def fallbackText : String :=
  "I apologize, but I encountered an error. Could you please repeat that?"

/-- callGeminiAPI (src/script.js lines 827-851): returns the response text on
success; on a non-ok status or a rejected fetch it shows a toast (display
effect, omitted) and returns the fallback apology.  It never throws, which the
model reflects by being a total function into String. -/
def callGeminiAPI : ApiOutcome → String
  | .ok text => text
  | .httpError _ => fallbackText
  | .reject _ => fallbackText

/-- JavaScript String.prototype.toLowerCase restricted to the ASCII range,
which covers the marker "correction:" checked by processUserResponse. -/
def jsToLower (s : String) : String := String.mk (s.toList.map Char.toLower)

/-- Substring occurrence test on character lists (JavaScript
String.prototype.includes). -/
def hasSubList (needle : List Char) : List Char → Bool
  | [] => needle.isEmpty
  | c :: rest => needle.isPrefixOf (c :: rest) || hasSubList needle rest

/-- The check response.toLowerCase().includes("correction:") from
src/script.js line 813. -/
def containsCorrection (s : String) : Bool :=
  hasSubList "correction:".toList (jsToLower s).toList

/-- The interview-session slice of the global state of src/script.js:
conversationHistory, questionCount, correctionCount. -/
structure InterviewState where
  conversationHistory : List Turn
  questionCount : Nat
  correctionCount : Nat
deriving DecidableEq, Repr

/-- Literal pieces of the template string built by processUserResponse
(src/script.js lines 792-804), transcribed exactly, including the four
indentation spaces the template literal keeps after "level." . -/
def promptP1 : String := "You are an expert interview coach conducting a "

/-- Second literal piece of the processUserResponse template. -/
def promptP2 : String := " interview at "

/-- Third literal piece of the processUserResponse template. -/
def promptP3 : String := " level.\n    \nPrevious conversation:\n"

/-- Fourth literal piece of the processUserResponse template. -/
def promptP4 : String := "\n\nThe candidate just said: \""

/-- Trailing literal piece of the processUserResponse template. -/
def promptP5 : String := "\"\n\nAnalyze their response and:\n1. If there are issues, provide a brief correction starting with \"Correction: \"\n2. Provide encouragement if tone is good\n3. Ask your next question\n\nKeep responses natural and conversational."

/-- The arrow function msg => role: content used in the slice(-5) map of
src/script.js line 795. -/
def formatTurn (t : Turn) : String := t.role ++ ": " ++ t.content

/-- conversationHistory.slice(-5): the at-most-five last elements, order
preserved (oldest first). -/
def lastFive (l : List Turn) : List Turn := l.drop (l.length - 5)

/-- The complete prompt template of processUserResponse, with the context
block computed from the history current at build time. -/
def buildPrompt (interviewType difficulty : String) (hist : List Turn)
    (userMessage : String) : String :=
  promptP1 ++ interviewType ++ promptP2 ++ difficulty ++ promptP3 ++
    String.intercalate "\n" ((lastFive hist).map formatTurn) ++
    promptP4 ++ userMessage ++ promptP5

/-- The JSON body sent by callGeminiAPI to POST /api/generate
(src/script.js lines 832-837). -/
structure GenerateRequest where
  api_key : String
  prompt : String
  history : List Turn
deriving DecidableEq, Repr

/-- Result of one exchange step: the updated interview state, the remote
request that was issued, and the response text that was dispatched to the
active output surface. -/
structure ExchangeResult where
  state : InterviewState
  request : GenerateRequest
  response : String
deriving DecidableEq, Repr

/-- processUserResponse (src/script.js lines 783-825), in source order:
push the user turn, build the prompt over the already-updated history,
call callGeminiAPI (whose request body carries api_key, the prompt, and the
updated history), push the assistant turn, bump correctionCount when the
response contains the marker, bump questionCount.  Display routing is a DOM
effect and is omitted. -/
def processUserResponse (apiKey interviewType difficulty : String)
    (st : InterviewState) (userMessage : String) (out : ApiOutcome) :
    ExchangeResult :=
  let hist1 := st.conversationHistory ++ [⟨"user", userMessage⟩]
  let prompt := buildPrompt interviewType difficulty hist1 userMessage
  let response := callGeminiAPI out
  let hist2 := hist1 ++ [⟨"assistant", response⟩]
  { state :=
      { conversationHistory := hist2
        questionCount := st.questionCount + 1
        correctionCount :=
          st.correctionCount + (if containsCorrection response then 1 else 0) }
    request := { api_key := apiKey, prompt := prompt, history := hist1 }
    response := response }

/-- Leading literal piece of the greeting template of sendInitialGreeting
(src/script.js lines 745-746). -/
def greetingP1 : String := "You are an expert interview coach. Start a "

/-- Middle literal piece of the greeting template. -/
def greetingP2 : String := " interview at "

/-- Trailing literal piece of the greeting template, keeping the four
indentation spaces of the second template line. -/
def greetingP3 : String := " level.\n    Greet the candidate warmly and ask your first question. Keep your responses natural and conversational."

/-- sendInitialGreeting (src/script.js lines 741-759): builds the greeting
prompt, calls callGeminiAPI, routes the response to a display surface
(omitted), and increments questionCount.  Note that it pushes nothing onto
conversationHistory and never touches correctionCount. -/
def sendInitialGreeting (apiKey interviewType difficulty : String)
    (st : InterviewState) (out : ApiOutcome) : ExchangeResult :=
  let prompt := greetingP1 ++ interviewType ++ greetingP2 ++ difficulty ++ greetingP3
  let response := callGeminiAPI out
  { state := { st with questionCount := st.questionCount + 1 }
    request := { api_key := apiKey, prompt := prompt, history := st.conversationHistory }
    response := response }

/-- startInterview (src/script.js lines 708-739) restricted to the modelled
state: resets questionCount, correctionCount and conversationHistory, then
performs the greeting exchange via sendInitialGreeting.  The api-key guard,
timers and display setup touch only the DOM and are omitted. -/
def startInterview (apiKey interviewType difficulty : String)
    (out : ApiOutcome) : ExchangeResult :=
  sendInitialGreeting apiKey interviewType difficulty ⟨[], 0, 0⟩ out

/-- A sequence of completed exchange turns driven by processUserResponse:
each element is the user utterance together with the observed remote
outcome for that turn. -/
def runTurns (apiKey interviewType difficulty : String)
    (st : InterviewState) (turns : List (String × ApiOutcome)) : InterviewState :=
  turns.foldl
    (fun s p => (processUserResponse apiKey interviewType difficulty s p.1 p.2).state)
    st

/-- The number of assistant turns whose text contains the case-insensitive
marker "correction:". -/
def countAssistantCorrections (hist : List Turn) : Nat :=
  (hist.filter (fun t => t.role == "assistant" && containsCorrection t.content)).length

/-! Recording controller (interview-mode speech recognition). -/

/-- The record-button label while idle (src/script.js line 644). -/
def idleBtnText : String := "Press to Speak"

/-- The record-button label while listening (src/script.js line 630). -/
def listeningBtnText : String := "Listening..."

/-- The interview recording controller state: the isRecording flag, whether
the underlying SpeechRecognition resource is currently started (the
speech-capture acquisition), and the observable record-button indicator. -/
structure RecState where
  isRecording : Bool
  recognitionStarted : Bool
  btnHasRecordingClass : Bool
  btnText : String
deriving DecidableEq, Repr

/-- stopRecording (src/script.js lines 640-653): clears isRecording and the
button indicator; when a recognition object exists it calls
recognition.stop() inside try/catch.  Stopping an already-stopped
recognizer is specified as a no-op by the Web Speech API, so the resource
flag simply becomes false. -/
def stopRecording (hasRecognition : Bool) (s : RecState) : RecState :=
  let s1 : RecState :=
    { s with isRecording := false, btnHasRecordingClass := false, btnText := idleBtnText }
  if hasRecognition then { s1 with recognitionStarted := false } else s1

/-- startRecording (src/script.js lines 621-638): bails out when speech
recognition is unsupported; otherwise sets isRecording and the indicator,
then calls recognition.start() inside try/catch.  The Web Speech API throws
InvalidStateError from start() when the recognizer is already started, and
the catch handler of the source calls stopRecording, which the
recognitionStarted branch models. -/
def startRecording (hasRecognition : Bool) (s : RecState) : RecState :=
  if hasRecognition then
    let s1 : RecState :=
      { s with isRecording := true, btnHasRecordingClass := true, btnText := listeningBtnText }
    if s1.recognitionStarted then stopRecording hasRecognition s1
    else { s1 with recognitionStarted := true }
  else s

/-- toggleRecording (src/script.js lines 613-619). -/
def toggleRecording (hasRecognition : Bool) (s : RecState) : RecState :=
  if s.isRecording then stopRecording hasRecognition s
  else startRecording hasRecognition s

/-- The controller is Idle: not recording, capture resource not held, and
the indicator shows the idle affordance. -/
def IsIdleRec (s : RecState) : Prop :=
  s.isRecording = false ∧ s.recognitionStarted = false ∧
    s.btnHasRecordingClass = false ∧ s.btnText = idleBtnText

/-- The controller is Active: recording with the capture resource held. -/
def IsActiveRec (s : RecState) : Prop :=
  s.isRecording = true ∧ s.recognitionStarted = true

/-! Screen/section navigator. -/

/-- A DOM element as the navigator sees it: an id (for nav buttons, the
data-section attribute value) and whether it carries the active class. -/
structure Elem where
  id : String
  active : Bool
deriving DecidableEq, Repr

/-- classList.remove("active"). -/
def deactivate (e : Elem) : Elem := { e with active := false }

/-- getElementById followed by classList.add("active"): activates the first
element carrying the id, and is a no-op when the id is absent. -/
def activateFirst : List Elem → String → List Elem
  | [], _ => []
  | e :: rest, targetId =>
      if e.id = targetId then { e with active := true } :: rest
      else e :: activateFirst rest targetId

/-- showScreen (src/script.js lines 185-192): first removes the active
class from every .screen element, then activates the element with the given
id when it exists.  The scroll reset is a display effect and is omitted. -/
def showScreen (screens : List Elem) (screenId : String) : List Elem :=
  activateFirst (screens.map deactivate) screenId

/-- One dashboard container: its .content-section elements and its .nav-btn
elements (nav buttons are keyed by their data-section value). -/
structure Dashboard where
  sections : List Elem
  navBtns : List Elem
deriving DecidableEq, Repr

/-- Removal of the active class from every section and nav button of one
dashboard. -/
def clearDashboard (d : Dashboard) : Dashboard :=
  { sections := d.sections.map deactivate, navBtns := d.navBtns.map deactivate }

/-- Whether some element of the list carries the given id. -/
def hasElemWithId (l : List Elem) (targetId : String) : Bool :=
  l.any (fun e => e.id == targetId)

/-- Document-order getElementById over the dashboards of the page, scoped
to their section lists: activates the target in the first dashboard that
contains it. -/
def activateSectionById : List Dashboard → String → List Dashboard
  | [], _ => []
  | d :: rest, targetId =>
      if hasElemWithId d.sections targetId then
        { d with sections := activateFirst d.sections targetId } :: rest
      else d :: activateSectionById rest targetId

/-- Document-order querySelector over nav buttons by data-section value. -/
def activateNavByName : List Dashboard → String → List Dashboard
  | [], _ => []
  | d :: rest, name =>
      if hasElemWithId d.navBtns name then
        { d with navBtns := activateFirst d.navBtns name } :: rest
      else d :: activateNavByName rest name

/-- sectionId.replace(/Section$/, "") from src/script.js line 200: drop a
trailing "Section" when the id ends with it, spelled over character lists
so that it evaluates inside the kernel. -/
def stripSectionSuffix (s : String) : String :=
  if "Section".toList.reverse.isPrefixOf s.toList.reverse then
    String.mk (s.toList.take (s.toList.length - 7))
  else s

/-- switchSection (src/script.js lines 194-204): removes the active class
from every .content-section and every .nav-btn in the whole document (all
dashboards), then activates the section with the given id and the nav
button whose data-section equals the id minus a trailing "Section". -/
def switchSection (doc : List Dashboard) (sectionId : String) : List Dashboard :=
  let cleared := doc.map clearDashboard
  let afterSection := activateSectionById cleared sectionId
  activateNavByName afterSection (stripSectionSuffix sectionId)

/-- The .nav-btn click handler body for one dashboard (src/script.js lines
391-421): deactivation and activation both run through
dashboard.querySelector, so they are confined to this dashboard.  The
section data loads it triggers only fetch and render data. -/
def navBtnClick (d : Dashboard) (sec : String) : Dashboard :=
  let cleared := clearDashboard d
  { sections := activateFirst cleared.sections (sec ++ "Section")
    navBtns := activateFirst cleared.navBtns sec }

/-- Replacement of the dashboard at one position of the document, leaving
every other dashboard untouched. -/
def updateDashboardAt : List Dashboard → Nat → (Dashboard → Dashboard) → List Dashboard
  | [], _, _ => []
  | d :: rest, 0, f => f d :: rest
  | d :: rest, n + 1, f => d :: updateDashboardAt rest n f

/-- A .nav-btn click inside the dashboard at index i of the document:
e.currentTarget.closest(".dashboard-container") selects that dashboard and
the handler runs scoped to it. -/
def navBtnClickIn (doc : List Dashboard) (i : Nat) (sec : String) : List Dashboard :=
  updateDashboardAt doc i (fun d => navBtnClick d sec)

/-! Session store. -/

/-- The currentUser record assembled by handleLogin (src/script.js lines
90-94). -/
structure UserRec where
  user_id : Nat
  username : String
  user_type : String
deriving DecidableEq, Repr

/-- The session slice of the global state plus the durable key-value client
storage (localStorage), modelled as an association list. -/
structure SessionState where
  authToken : Option String
  currentUser : Option UserRec
  apiKey : String
  localStorage : List (String × String)
deriving DecidableEq, Repr

/-- localStorage.removeItem. -/
def removeStorageKey (st : List (String × String)) (k : String) : List (String × String) :=
  st.filter (fun kv => !(kv.1 == k))

/-- localStorage.getItem. -/
def getStorageItem (st : List (String × String)) (k : String) : Option String :=
  (st.find? (fun kv => kv.1 == k)).map (fun kv => kv.2)

/-- handleLogout (src/script.js lines 136-151): the server logout call and
the toast touch no modelled state; the function removes the durable
authToken entry and nulls authToken and currentUser.  The checkAuth call it
ends with finds no stored token and only shows the auth screen.  Nothing in
the body reads or writes apiKey. -/
def handleLogout (s : SessionState) : SessionState :=
  { s with
      localStorage := removeStorageKey s.localStorage "authToken"
      authToken := none
      currentUser := none }

/-! escapeHtml. -/

/-- The per-character replacement of escapeHtml (src/script.js lines
533-537).  The regex character class is [&<"=/] together with the single
quote (code 39) and the backtick (code 96); the replacement map also holds
an entry for the greater-than sign, but that character is absent from the
class, so the entry is unreachable and the character passes through via the
default branch. -/
def escapeChar (c : Char) : String :=
  if c = '&' then "&amp;"
  else if c = '<' then "&lt;"
  else if c = '"' then "&quot;"
  else if c = Char.ofNat 39 then "&#39;"
  else if c = '/' then "&#47;"
  else if c = Char.ofNat 96 then "&#96;"
  else if c = '=' then "&#61;"
  else String.singleton c

/-- Global regex replacement as character-wise expansion; replacement text
is emitted verbatim and never rescanned, exactly as String.prototype.replace
behaves. -/
def escapeHtmlList : List Char → List Char
  | [] => []
  | c :: rest => (escapeChar c).toList ++ escapeHtmlList rest

/-- escapeHtml (src/script.js lines 533-537). -/
def escapeHtml (s : String) : String := String.mk (escapeHtmlList s.toList)

/-- The seven characters of the regex character class of escapeHtml. -/
def classChars : List Char :=
  ['&', '<', '"', Char.ofNat 39, '/', Char.ofNat 96, '=']

/-- The class characters other than the ampersand; the ampersand reappears
in the output as the lead character of every emitted entity. -/
def sixRawChars : List Char :=
  ['<', '"', Char.ofNat 39, '/', Char.ofNat 96, '=']

/-! useGeneratedPaper. -/

/-- JavaScript String.prototype.trim over the ASCII whitespace characters
that occur in generated-paper text. -/
def jsTrim (s : String) : String :=
  String.mk
    (((s.toList.dropWhile Char.isWhitespace).reverse.dropWhile Char.isWhitespace).reverse)

/-- Lowercase spelling of the first marker alternative of the split regex
of useGeneratedPaper (the regex carries the i flag). -/
def markerQP : List Char := "===question paper===".toList

/-- Lowercase spelling of the second marker alternative. -/
def markerEP : List Char := "===end paper===".toList

/-- Case-insensitive literal match of pat at the head of l. -/
def matchesCI (pat l : List Char) : Bool :=
  pat.isPrefixOf ((l.take pat.length).map Char.toLower)

/-- Length of the marker-regex match starting at the head of the list, zero
when no alternative matches; alternatives are tried in source order. -/
def markerLen (l : List Char) : Nat :=
  if matchesCI markerQP l then markerQP.length
  else if matchesCI markerEP l then markerEP.length
  else 0

/-- Length of a question-separator match at the head of the list for the
regex with alternatives newline-newline, newline digits dot, and newline
opening bracket, tried in source order; zero when none matches.  The digits
alternative succeeds exactly when a nonempty maximal digit run is followed
by a dot, which is what the backtracking regex accepts. -/
def qSepLen (l : List Char) : Nat :=
  match l with
  | '\n' :: '\n' :: _ => 2
  | '\n' :: rest =>
      let digits := rest.takeWhile Char.isDigit
      if digits.isEmpty then
        match rest with
        | '[' :: _ => 2
        | _ => 0
      else
        match rest.drop digits.length with
        | '.' :: _ => digits.length + 2
        | _ => 0
  | _ => 0

/-- JavaScript String.prototype.split against a regex described by a
match-length function: scan left to right, cut at every match, and consume
the matched characters.  Every match consumes at least one character, so
fuel equal to the input length always suffices; the fuel argument only
makes the recursion structural. -/
def splitByLen (sepLen : List Char → Nat) : Nat → List Char → List Char → List (List Char)
  | _, [], acc => [acc.reverse]
  | 0, l, acc => [acc.reverse ++ l]
  | fuel + 1, c :: rest, acc =>
      let n := sepLen (c :: rest)
      if n = 0 then splitByLen sepLen fuel rest (c :: acc)
      else acc.reverse :: splitByLen sepLen fuel ((c :: rest).drop n) []

/-- content.split of the marker regex (src/script.js line 544). -/
def splitMarkers (s : String) : List String :=
  (splitByLen markerLen s.toList.length s.toList []).map String.mk

/-- questionsText.split of the question-separator regex (src/script.js
line 546). -/
def splitQuestions (s : String) : List String :=
  (splitByLen qSepLen s.toList.length s.toList []).map String.mk

/-- One parsed question of window._selected_generated_questions. -/
structure Question where
  qid : Nat
  text : String
deriving DecidableEq, Repr

/-- useGeneratedPaper (src/script.js lines 539-551) from the stored paper
content and the parsed numQuestions value: split on the paper markers, keep
the parts with nonempty trim, fall back to the whole content when none
remains (the parts[0] or-else content expression), split into question
candidates, trim each, keep those longer than twenty characters, truncate
to numQuestions, and number the survivors from one. -/
def useGeneratedPaper (content : String) (numQuestions : Nat) : List Question :=
  let parts := (splitMarkers content).filter (fun p => !(jsTrim p).isEmpty)
  let questionsText :=
    match parts with
    | [] => content
    | p :: _ => if p.isEmpty then content else p
  let questions :=
    (((splitQuestions questionsText).map jsTrim).filter (fun q => 20 < q.length)).take
      numQuestions
  questions.enum.map (fun iq => { qid := iq.1 + 1, text := iq.2 })

/-- Substring-occurrence predicate used to state what the generate request
carries: a occurs contiguously inside b. -/
def SubStr (a b : String) : Prop :=
  ∃ p q : List Char, b.data = p ++ (a.data ++ q)

/-! Theorems. -/

/-- Appending strings concatenates their character data. -/
theorem string_data_append (a b : String) : (a ++ b).data = a.data ++ b.data := rfl

/-- C2: for every user utterance, when the generate call rejects or returns a
non-success status, processUserResponse completes normally (the model is a
total function, mirroring that callGeminiAPI catches both failure paths),
appends the user turn followed by exactly one assistant turn holding the
fixed fallback apology, and increments questionCount by exactly one. -/
theorem c2_remote_failure_absorbed (apiKey ty diff u msg : String)
    (st : InterviewState) :
    (processUserResponse apiKey ty diff st u (.httpError msg)).state.conversationHistory
        = st.conversationHistory ++ [⟨"user", u⟩, ⟨"assistant", fallbackText⟩] ∧
    (processUserResponse apiKey ty diff st u (.httpError msg)).state.questionCount
        = st.questionCount + 1 ∧
    (processUserResponse apiKey ty diff st u (.reject msg)).state.conversationHistory
        = st.conversationHistory ++ [⟨"user", u⟩, ⟨"assistant", fallbackText⟩] ∧
    (processUserResponse apiKey ty diff st u (.reject msg)).state.questionCount
        = st.questionCount + 1 := by
  refine ⟨?_, rfl, ?_, rfl⟩ <;>
    simp [processUserResponse, callGeminiAPI]

/-- Finding the removed key in the filtered store yields nothing. -/
theorem find?_filter_self (l : List (String × String)) (k : String) :
    List.find? (fun kv => kv.1 == k) (l.filter (fun kv => !(kv.1 == k))) = none := by
  induction l with
  | nil => rfl
  | cons kv rest ih =>
      rw [List.filter_cons]
      by_cases h : kv.1 = k
      · rw [if_neg (by simp [h])]
        exact ih
      · rw [if_pos (by simp [h])]
        rw [List.find?_cons_of_neg _ (by simp [h])]
        exact ih

/-- Filtering out one key does not change lookups of a different key. -/
theorem find?_filter_ne (l : List (String × String)) (k k2 : String)
    (hne : k2 ≠ k) :
    List.find? (fun kv => kv.1 == k2) (l.filter (fun kv => !(kv.1 == k)))
      = List.find? (fun kv => kv.1 == k2) l := by
  induction l with
  | nil => rfl
  | cons kv rest ih =>
      rw [List.filter_cons]
      by_cases h : kv.1 = k
      · rw [if_neg (by simp [h])]
        rw [List.find?_cons_of_neg _ (by simp [h]; intro e; exact hne e.symm)]
        exact ih
      · rw [if_pos (by simp [h])]
        by_cases h2 : kv.1 = k2
        · rw [List.find?_cons_of_pos _ (by simp [h2]),
            List.find?_cons_of_pos _ (by simp [h2])]
        · rw [List.find?_cons_of_neg _ (by simp [h2]),
            List.find?_cons_of_neg _ (by simp [h2])]
          exact ih

/-- Looking up the removed key yields nothing. -/
theorem getStorage_remove_self (st : List (String × String)) (k : String) :
    getStorageItem (removeStorageKey st k) k = none := by
  unfold getStorageItem removeStorageKey
  rw [find?_filter_self]
  rfl

/-- Removing one key leaves every other key unchanged. -/
theorem getStorage_remove_other (st : List (String × String)) (k k2 : String)
    (hne : k2 ≠ k) :
    getStorageItem (removeStorageKey st k) k2 = getStorageItem st k2 := by
  unfold getStorageItem removeStorageKey
  rw [find?_filter_ne st k k2 hne]

/-- C6 counterexample: the claim asserts handleLogout clears the in-memory
apiKey, but at this concrete session the apiKey after logout is still the
stored key and not the cleared empty string. -/
theorem c6_counterexample :
    (handleLogout
        ⟨some "tok", some ⟨1, "alice", "student"⟩, "gemini-key-123",
          [("authToken", "tok"), ("apiKey", "gemini-key-123")]⟩).apiKey
      = "gemini-key-123" ∧ "gemini-key-123" ≠ "" := by
  decide

/-- C6 amended: handleLogout nulls authToken and currentUser and removes the
durable authToken entry, but leaves the in-memory apiKey unchanged; the
saved apiKey in durable storage also survives. -/
theorem c6_amended (s : SessionState) :
    (handleLogout s).authToken = none ∧
    (handleLogout s).currentUser = none ∧
    (handleLogout s).apiKey = s.apiKey ∧
    getStorageItem (handleLogout s).localStorage "authToken" = none ∧
    getStorageItem (handleLogout s).localStorage "apiKey"
        = getStorageItem s.localStorage "apiKey" :=
  ⟨rfl, rfl, rfl, getStorage_remove_self s.localStorage "authToken",
    getStorage_remove_other s.localStorage "authToken" "apiKey" (by decide)⟩

/-- Each completed exchange turn grows the history by exactly two entries. -/
theorem runTurns_length (apiKey ty diff : String)
    (turns : List (String × ApiOutcome)) :
    ∀ st : InterviewState,
      (runTurns apiKey ty diff st turns).conversationHistory.length
        = st.conversationHistory.length + 2 * turns.length := by
  induction turns with
  | nil => intro st; rfl
  | cons p rest ih =>
      intro st
      have h1 : runTurns apiKey ty diff st (p :: rest)
          = runTurns apiKey ty diff
              ((processUserResponse apiKey ty diff st p.1 p.2).state) rest := rfl
      rw [h1, ih]
      simp [processUserResponse]
      omega

/-- C1 counterexample: the claim asserts that immediately after the greeting
exchange of startInterview the history is the one-element assistant turn
holding the returned text; in the code sendInitialGreeting never pushes onto
conversationHistory, so at this concrete run the history is empty. -/
theorem c1_counterexample :
    (startInterview "k" "technical" "medium"
        (.ok "Hello, welcome!")).state.conversationHistory
      ≠ [⟨"assistant", "Hello, welcome!"⟩] := by
  decide

/-- C1 amended: after startInterview and N completed processUserResponse
turns the history length is exactly 2N; the initial greeting contributes no
history entry, and immediately after it the history is empty, questionCount
is one and correctionCount is zero. -/
theorem c1_amended (apiKey ty diff : String) (out : ApiOutcome)
    (turns : List (String × ApiOutcome)) :
    (runTurns apiKey ty diff (startInterview apiKey ty diff out).state
        turns).conversationHistory.length = 2 * turns.length ∧
    (startInterview apiKey ty diff out).state.conversationHistory = [] ∧
    (startInterview apiKey ty diff out).state.questionCount = 1 ∧
    (startInterview apiKey ty diff out).state.correctionCount = 0 := by
  refine ⟨?_, rfl, rfl, rfl⟩
  rw [runTurns_length]
  exact Nat.zero_add _

/-- Appending one user turn and one assistant turn adds one to the
correction count exactly when the assistant text carries the marker. -/
theorem countCorrections_append_pair (h : List Turn) (u a : String) :
    countAssistantCorrections (h ++ [⟨"user", u⟩, ⟨"assistant", a⟩])
      = countAssistantCorrections h
          + (if containsCorrection a then 1 else 0) := by
  have hu : (("user" : String) == "assistant") = false := by decide
  have ha : (("assistant" : String) == "assistant") = true := by decide
  cases hc : containsCorrection a <;>
    simp [countAssistantCorrections, List.filter_append, List.filter, hu, ha, hc]

/-- The exchange loop preserves the correction-counter invariant. -/
theorem runTurns_corrections (apiKey ty diff : String)
    (turns : List (String × ApiOutcome)) :
    ∀ st : InterviewState,
      st.correctionCount = countAssistantCorrections st.conversationHistory →
      (runTurns apiKey ty diff st turns).correctionCount
        = countAssistantCorrections
            (runTurns apiKey ty diff st turns).conversationHistory := by
  induction turns with
  | nil => intro st h; exact h
  | cons p rest ih =>
      intro st h
      have h1 : runTurns apiKey ty diff st (p :: rest)
          = runTurns apiKey ty diff
              ((processUserResponse apiKey ty diff st p.1 p.2).state) rest := rfl
      rw [h1]
      apply ih
      simp [processUserResponse, List.append_assoc, countCorrections_append_pair, h]

/-- C5: after any sequence of completed exchange turns following an
interview start, correctionCount equals the number of assistant turns whose
text contains the marker "correction:" case-insensitively; on the three
example assistant turns of the claim the count is two. -/
theorem c5_correction_counter (apiKey ty diff : String) (out : ApiOutcome)
    (turns : List (String × ApiOutcome)) :
    (runTurns apiKey ty diff (startInterview apiKey ty diff out).state
        turns).correctionCount
      = countAssistantCorrections
          (runTurns apiKey ty diff (startInterview apiKey ty diff out).state
            turns).conversationHistory ∧
    countAssistantCorrections
        [⟨"assistant", "Correction: fix your tense"⟩, ⟨"assistant", "Great job!"⟩,
          ⟨"assistant", "correction: be concise"⟩] = 2 := by
  constructor
  · exact runTurns_corrections apiKey ty diff turns _ rfl
  · decide

/-- C3 counterexample: the claim asserts that startRecording on an Active
controller is a no-op that leaves it Active; in the code recognition.start
throws on an already-started recognizer and the catch handler calls
stopRecording, so at this concrete Active state the controller ends Idle
with the recognizer stopped. -/
theorem c3_counterexample :
    (startRecording true ⟨true, true, true, listeningBtnText⟩).isRecording = false ∧
    (startRecording true ⟨true, true, true, listeningBtnText⟩).recognitionStarted
      = false := by
  decide

/-- C3 amended: stopRecording on an Idle controller is a safe no-op, and
startRecording on an Active controller raises nothing and does not acquire
the speech-capture resource a second time, but it stops the recognizer and
leaves the controller Idle rather than Active. -/
theorem c3_amended :
    (∀ (hasRec : Bool) (s : RecState), IsIdleRec s → stopRecording hasRec s = s) ∧
    (∀ s : RecState, IsActiveRec s →
        startRecording true s = ⟨false, false, false, idleBtnText⟩) := by
  constructor
  · rintro hasRec ⟨ir, rs, bc, bt⟩ ⟨h1, h2, h3, h4⟩
    simp only at h1 h2 h3 h4
    subst h1; subst h2; subst h3; subst h4
    cases hasRec <;> rfl
  · rintro ⟨ir, rs, bc, bt⟩ ⟨h1, h2⟩
    simp only at h1 h2
    subst h1; subst h2
    rfl

/-- When no element carries the target id, activation is the identity. -/
theorem activateFirst_not_found (l : List Elem) (targetId : String)
    (h : ∀ e ∈ l, e.id ≠ targetId) : activateFirst l targetId = l := by
  induction l with
  | nil => rfl
  | cons e rest ih =>
      simp only [activateFirst]
      rw [if_neg (h e (List.mem_cons_self e rest)),
        ih (fun x hx => h x (List.mem_cons_of_mem e hx))]

/-- When no element carries the id, the membership test is false. -/
theorem hasElemWithId_false_of (l : List Elem) (i : String)
    (h : ∀ e ∈ l, e.id ≠ i) : ¬(hasElemWithId l i = true) := by
  simp only [hasElemWithId, List.any_eq_true, beq_iff_eq]
  rintro ⟨e, he, hid⟩
  exact h e he hid

/-- When no dashboard holds the section id, section activation is the
identity on the document. -/
theorem activateSectionById_not_found (doc : List Dashboard) (targetId : String)
    (h : ∀ d ∈ doc, ∀ e ∈ d.sections, e.id ≠ targetId) :
    activateSectionById doc targetId = doc := by
  induction doc with
  | nil => rfl
  | cons d rest ih =>
      simp only [activateSectionById]
      rw [if_neg (hasElemWithId_false_of d.sections targetId
          (h d (List.mem_cons_self d rest))),
        ih (fun d2 hd2 => h d2 (List.mem_cons_of_mem d hd2))]

/-- When no dashboard holds the nav-button name, nav activation is the
identity on the document. -/
theorem activateNavByName_not_found (doc : List Dashboard) (name : String)
    (h : ∀ d ∈ doc, ∀ e ∈ d.navBtns, e.id ≠ name) :
    activateNavByName doc name = doc := by
  induction doc with
  | nil => rfl
  | cons d rest ih =>
      simp only [activateNavByName]
      rw [if_neg (hasElemWithId_false_of d.navBtns name
          (h d (List.mem_cons_self d rest))),
        ih (fun d2 hd2 => h d2 (List.mem_cons_of_mem d hd2))]

/-- C4 counterexample: the claim asserts that a transition to an id absent
from the DOM leaves the set of active screens and sections unchanged; at
these concrete inputs showScreen and switchSection both deactivate the
previously active element even though the target id does not exist. -/
theorem c4_counterexample :
    showScreen [⟨"authScreen", true⟩] "noSuchScreen" ≠ [⟨"authScreen", true⟩] ∧
    switchSection [⟨[⟨"assignmentsSection", true⟩], []⟩] "noSuchSection"
      ≠ [⟨[⟨"assignmentsSection", true⟩], []⟩] := by
  decide

/-- C4 amended: when the target id exists nowhere, the transition raises no
exception (both operations are total functions), but instead of leaving the
active set unchanged it removes the active class everywhere: showScreen
leaves every screen deactivated and switchSection leaves every section and
nav button of every dashboard deactivated. -/
theorem c4_amended :
    (∀ (screens : List Elem) (screenId : String),
        (∀ e ∈ screens, e.id ≠ screenId) →
        showScreen screens screenId = screens.map deactivate) ∧
    (∀ (doc : List Dashboard) (sectionId : String),
        (∀ d ∈ doc, ∀ e ∈ d.sections, e.id ≠ sectionId) →
        (∀ d ∈ doc, ∀ e ∈ d.navBtns, e.id ≠ stripSectionSuffix sectionId) →
        switchSection doc sectionId = doc.map clearDashboard) := by
  constructor
  · intro screens screenId h
    unfold showScreen
    apply activateFirst_not_found
    intro e he
    rcases List.mem_map.mp he with ⟨e0, he0, rfl⟩
    exact h e0 he0
  · intro doc sectionId hs hn
    have hs2 : ∀ d ∈ doc.map clearDashboard, ∀ e ∈ d.sections, e.id ≠ sectionId := by
      intro d hd e he
      rcases List.mem_map.mp hd with ⟨d0, hd0, rfl⟩
      rcases List.mem_map.mp he with ⟨e0, he0, rfl⟩
      exact hs d0 hd0 e0 he0
    have hn2 : ∀ d ∈ doc.map clearDashboard, ∀ e ∈ d.navBtns,
        e.id ≠ stripSectionSuffix sectionId := by
      intro d hd e he
      rcases List.mem_map.mp hd with ⟨d0, hd0, rfl⟩
      rcases List.mem_map.mp he with ⟨e0, he0, rfl⟩
      exact hn d0 hd0 e0 he0
    show activateNavByName (activateSectionById (doc.map clearDashboard) sectionId)
        (stripSectionSuffix sectionId) = doc.map clearDashboard
    rw [activateSectionById_not_found _ _ hs2, activateNavByName_not_found _ _ hn2]

/-- C4 witness: the amended theorem applied at a concrete one-screen page
and a concrete one-dashboard document with missing target ids. -/
theorem c4_witness :
    showScreen [⟨"authScreen", true⟩] "missingScreen"
        = ([⟨"authScreen", true⟩] : List Elem).map deactivate ∧
    switchSection [⟨[⟨"papersSection", true⟩], [⟨"papers", true⟩]⟩] "missingSection"
        = ([⟨[⟨"papersSection", true⟩], [⟨"papers", true⟩]⟩] : List Dashboard).map
            clearDashboard :=
  ⟨c4_amended.1 [⟨"authScreen", true⟩] "missingScreen" (by decide),
    c4_amended.2 [⟨[⟨"papersSection", true⟩], [⟨"papers", true⟩]⟩] "missingSection"
      (by decide) (by decide)⟩

/-- Updating the dashboard at the index right after a prefix touches exactly
that dashboard. -/
theorem updateDashboardAt_append (pre : List Dashboard) (d : Dashboard)
    (post : List Dashboard) (f : Dashboard → Dashboard) :
    updateDashboardAt (pre ++ d :: post) pre.length f = pre ++ f d :: post := by
  induction pre with
  | nil => rfl
  | cons p rest ih =>
      show p :: updateDashboardAt (rest ++ d :: post) rest.length f
          = p :: (rest ++ f d :: post)
      rw [ih]

/-- Starting from an all-inactive element list, activation can only leave
elements active whose id is the target. -/
theorem activateFirst_active_id (l : List Elem) (i : String)
    (h : ∀ e ∈ l, e.active = false) :
    ∀ e ∈ activateFirst l i, e.active = true → e.id = i := by
  induction l with
  | nil =>
      intro e he
      simp [activateFirst] at he
  | cons a rest ih =>
      by_cases hid : a.id = i
      · intro e he hact
        simp only [activateFirst, if_pos hid] at he
        rcases List.mem_cons.mp he with rfl | hmem
        · exact hid
        · rw [h e (List.mem_cons_of_mem a hmem)] at hact
          exact Bool.noConfusion hact
      · intro e he hact
        simp only [activateFirst, if_neg hid] at he
        rcases List.mem_cons.mp he with rfl | hmem
        · rw [h e (List.mem_cons_self e rest)] at hact
          exact Bool.noConfusion hact
        · exact ih (fun x hx => h x (List.mem_cons_of_mem a hx)) e hmem hact

/-- Lifting of the previous lemma to the document: starting from
all-inactive sections, only sections carrying the target id end active. -/
theorem activateSectionById_active_id (doc : List Dashboard) (i : String)
    (h : ∀ d ∈ doc, ∀ e ∈ d.sections, e.active = false) :
    ∀ d ∈ activateSectionById doc i, ∀ e ∈ d.sections, e.active = true → e.id = i := by
  induction doc with
  | nil =>
      intro d hd
      simp [activateSectionById] at hd
  | cons d0 rest ih =>
      by_cases hc : hasElemWithId d0.sections i = true
      · intro d hd e he hact
        simp only [activateSectionById, if_pos hc] at hd
        rcases List.mem_cons.mp hd with rfl | hmem
        · exact activateFirst_active_id d0.sections i
            (h d0 (List.mem_cons_self d0 rest)) e he hact
        · rw [h d (List.mem_cons_of_mem d0 hmem) e he] at hact
          exact Bool.noConfusion hact
      · intro d hd e he hact
        simp only [activateSectionById, if_neg hc] at hd
        rcases List.mem_cons.mp hd with rfl | hmem
        · rw [h d (List.mem_cons_self d rest) e he] at hact
          exact Bool.noConfusion hact
        · exact ih (fun x hx => h x (List.mem_cons_of_mem d0 hx)) d hmem e he hact

/-- Nav-button activation never changes any section list. -/
theorem activateNavByName_sections (doc : List Dashboard) (n : String) :
    ∀ d ∈ activateNavByName doc n, ∃ d0 ∈ doc, d.sections = d0.sections := by
  induction doc with
  | nil =>
      intro d hd
      simp [activateNavByName] at hd
  | cons a rest ih =>
      by_cases hc : hasElemWithId a.navBtns n = true
      · intro d hd
        simp only [activateNavByName, if_pos hc] at hd
        rcases List.mem_cons.mp hd with rfl | hmem
        · exact ⟨a, List.mem_cons_self a rest, rfl⟩
        · exact ⟨d, List.mem_cons_of_mem a hmem, rfl⟩
      · intro d hd
        simp only [activateNavByName, if_neg hc] at hd
        rcases List.mem_cons.mp hd with rfl | hmem
        · exact ⟨d, List.mem_cons_self d rest, rfl⟩
        · rcases ih d hmem with ⟨d0, hd0, hsec⟩
          exact ⟨d0, List.mem_cons_of_mem a hd0, hsec⟩

/-- After the global clear, every section of every dashboard is inactive. -/
theorem cleared_sections_inactive (doc : List Dashboard) :
    ∀ d ∈ doc.map clearDashboard, ∀ e ∈ d.sections, e.active = false := by
  intro d hd e he
  rcases List.mem_map.mp hd with ⟨d0, hd0, rfl⟩
  rcases List.mem_map.mp he with ⟨e0, he0, rfl⟩
  rfl

/-- C7 counterexample: the claim asserts that no Navigator section
activation ever deactivates another dashboard's sections; switchSection
(invoked for example by viewSubmissions with the teacher section
gradeSection) clears content sections document-wide, so at this concrete
two-dashboard document the student dashboard's active section is
deactivated. -/
theorem c7_counterexample :
    switchSection
        [⟨[⟨"papersSection", true⟩, ⟨"gradeSection", false⟩],
            [⟨"papers", true⟩, ⟨"grade", false⟩]⟩,
          ⟨[⟨"assignmentsSection", true⟩], [⟨"assignments", true⟩]⟩]
        "gradeSection"
      = [⟨[⟨"papersSection", false⟩, ⟨"gradeSection", true⟩],
            [⟨"papers", false⟩, ⟨"grade", true⟩]⟩,
          ⟨[⟨"assignmentsSection", false⟩], [⟨"assignments", false⟩]⟩] ∧
    (Elem.mk "assignmentsSection" false) ≠ (Elem.mk "assignmentsSection" true) := by
  decide

/-- C7 amended: activation through the per-dashboard nav-button click
handler is scoped to the owning dashboard and leaves every other dashboard
untouched; activation through switchSection, by contrast, deactivates
content sections in every dashboard, so that afterwards only sections
carrying the target id can be active anywhere in the document. -/
theorem c7_amended :
    (∀ (pre : List Dashboard) (d : Dashboard) (post : List Dashboard) (sec : String),
        navBtnClickIn (pre ++ d :: post) pre.length sec
          = pre ++ navBtnClick d sec :: post) ∧
    (∀ (doc : List Dashboard) (sectionId : String),
        ∀ d ∈ switchSection doc sectionId, ∀ e ∈ d.sections,
          e.active = true → e.id = sectionId) := by
  constructor
  · intro pre d post sec
    exact updateDashboardAt_append pre d post _
  · intro doc sectionId d hd e he hact
    unfold switchSection at hd
    rcases activateNavByName_sections _ _ d hd with ⟨d1, hd1, hsec⟩
    rw [hsec] at he
    exact activateSectionById_active_id _ sectionId
      (cleared_sections_inactive doc) d1 hd1 e he hact

/-- C7 witness: the amended theorem applied at a concrete two-dashboard
document, both for a scoped nav click in the second dashboard and for the
active section that survives a switchSection call. -/
theorem c7_witness :
    navBtnClickIn
        ([⟨[⟨"assignmentsSection", true⟩], [⟨"assignments", true⟩]⟩] ++
          (⟨[⟨"papersSection", false⟩], [⟨"papers", false⟩]⟩ : Dashboard) :: [])
        1 "papers"
      = [⟨[⟨"assignmentsSection", true⟩], [⟨"assignments", true⟩]⟩] ++
          navBtnClick ⟨[⟨"papersSection", false⟩], [⟨"papers", false⟩]⟩ "papers" :: [] ∧
    (Elem.mk "gradeSection" true).id = "gradeSection" :=
  ⟨c7_amended.1 [⟨[⟨"assignmentsSection", true⟩], [⟨"assignments", true⟩]⟩]
      ⟨[⟨"papersSection", false⟩], [⟨"papers", false⟩]⟩ [] "papers",
    c7_amended.2
      [⟨[⟨"papersSection", true⟩, ⟨"gradeSection", false⟩],
          [⟨"papers", true⟩, ⟨"grade", false⟩]⟩,
        ⟨[⟨"assignmentsSection", true⟩], [⟨"assignments", true⟩]⟩]
      "gradeSection"
      ⟨[⟨"papersSection", false⟩, ⟨"gradeSection", true⟩],
        [⟨"papers", false⟩, ⟨"grade", true⟩]⟩
      (by decide) ⟨"gradeSection", true⟩ (by decide) rfl⟩

/-- C3 witness: the amended theorem applied at a concrete Idle state and a
concrete Active state. -/
theorem c3_witness :
    stopRecording true ⟨false, false, false, idleBtnText⟩
        = ⟨false, false, false, idleBtnText⟩ ∧
    startRecording true ⟨true, true, true, listeningBtnText⟩
        = ⟨false, false, false, idleBtnText⟩ :=
  ⟨c3_amended.1 true ⟨false, false, false, idleBtnText⟩ ⟨rfl, rfl, rfl, rfl⟩,
    c3_amended.2 ⟨true, true, true, listeningBtnText⟩ ⟨rfl, rfl⟩⟩

/-- C8: the generate-completion request built by processUserResponse
carries the interview type, the difficulty, the block of the last five
conversation turns (the order-preserving suffix of the history updated with
the new user turn, each formatted as a role-colon-text line and joined by
newlines), and the new utterance; the request history field is the updated
history itself. -/
theorem c8_request_carries_context (apiKey ty diff u : String)
    (st : InterviewState) (out : ApiOutcome) :
    SubStr ty (processUserResponse apiKey ty diff st u out).request.prompt ∧
    SubStr diff (processUserResponse apiKey ty diff st u out).request.prompt ∧
    SubStr
      (String.intercalate "\n"
        ((lastFive (st.conversationHistory ++ [Turn.mk "user" u])).map formatTurn))
      (processUserResponse apiKey ty diff st u out).request.prompt ∧
    SubStr u (processUserResponse apiKey ty diff st u out).request.prompt ∧
    (lastFive (st.conversationHistory ++ [Turn.mk "user" u])).length
        = min 5 (st.conversationHistory ++ [Turn.mk "user" u]).length ∧
    (st.conversationHistory ++ [Turn.mk "user" u]).drop
        ((st.conversationHistory ++ [Turn.mk "user" u]).length - 5)
      = lastFive (st.conversationHistory ++ [Turn.mk "user" u]) ∧
    (processUserResponse apiKey ty diff st u out).request.history
        = st.conversationHistory ++ [Turn.mk "user" u] := by
  have hprompt : (processUserResponse apiKey ty diff st u out).request.prompt
      = buildPrompt ty diff (st.conversationHistory ++ [Turn.mk "user" u]) u := rfl
  rw [hprompt]
  unfold SubStr
  refine ⟨?_, ?_, ?_, ?_, ?_, rfl, rfl⟩
  · exact ⟨promptP1.data,
      (promptP2 ++ diff ++ promptP3 ++
        String.intercalate "\n"
          ((lastFive (st.conversationHistory ++ [Turn.mk "user" u])).map formatTurn) ++
        promptP4 ++ u ++ promptP5).data,
      by simp [buildPrompt, string_data_append, List.append_assoc]⟩
  · exact ⟨(promptP1 ++ ty ++ promptP2).data,
      (promptP3 ++
        String.intercalate "\n"
          ((lastFive (st.conversationHistory ++ [Turn.mk "user" u])).map formatTurn) ++
        promptP4 ++ u ++ promptP5).data,
      by simp [buildPrompt, string_data_append, List.append_assoc]⟩
  · exact ⟨(promptP1 ++ ty ++ promptP2 ++ diff ++ promptP3).data,
      (promptP4 ++ u ++ promptP5).data,
      by simp [buildPrompt, string_data_append, List.append_assoc]⟩
  · exact ⟨(promptP1 ++ ty ++ promptP2 ++ diff ++ promptP3 ++
        String.intercalate "\n"
          ((lastFive (st.conversationHistory ++ [Turn.mk "user" u])).map formatTurn) ++
        promptP4).data,
      promptP5.data,
      by simp [buildPrompt, string_data_append, List.append_assoc]⟩
  · simp only [lastFive, List.length_drop]
    omega

/-- C9 counterexample: the claim asserts that the output of escapeHtml
contains none of the seven class characters; on the input consisting of a
single less-than sign the output is the entity text, whose first character
is a raw ampersand. -/
theorem c9_counterexample :
    escapeHtml "<" = "&lt;" ∧ '&' ∈ (escapeHtml "<").toList := by
  decide

/-- Each expanded character contributes none of the six raw specials. -/
theorem escapeChar_no_sixRaw (c : Char) :
    ((escapeChar c).toList.all (fun x => !(sixRawChars.contains x))) = true := by
  unfold escapeChar
  split_ifs with h1 h2 h3 h4 h5 h6 h7
  · subst h1; decide
  · subst h2; decide
  · subst h3; decide
  · subst h4; decide
  · subst h5; decide
  · subst h6; decide
  · subst h7; decide
  · simp [String.singleton, sixRawChars, h2, h3, h4, h5, h6, h7]

/-- Each expanded character preserves the number of greater-than signs. -/
theorem escapeChar_count_gt (c : Char) :
    ((escapeChar c).toList.count '>') = (if c = '>' then 1 else 0) := by
  by_cases h1 : c = '&'
  · subst h1; decide
  by_cases h2 : c = '<'
  · subst h2; decide
  by_cases h3 : c = '"'
  · subst h3; decide
  by_cases h4 : c = Char.ofNat 39
  · subst h4; decide
  by_cases h5 : c = '/'
  · subst h5; decide
  by_cases h6 : c = Char.ofNat 96
  · subst h6; decide
  by_cases h7 : c = '='
  · subst h7; decide
  have he : escapeChar c = String.singleton c := by
    unfold escapeChar
    rw [if_neg h1, if_neg h2, if_neg h3, if_neg h4, if_neg h5, if_neg h6, if_neg h7]
  rw [he]
  by_cases hgt : c = '>'
  · subst hgt; decide
  · rw [if_neg hgt]
    have hgt2 : ¬('>' = c) := fun h => hgt h.symm
    simp [String.singleton, hgt2]

/-- The whole expansion contributes none of the six raw specials. -/
theorem escapeHtmlList_no_sixRaw (l : List Char) :
    ((escapeHtmlList l).all (fun x => !(sixRawChars.contains x))) = true := by
  induction l with
  | nil => rfl
  | cons c rest ih =>
      simp only [escapeHtmlList, List.all_append, ih, escapeChar_no_sixRaw,
        Bool.and_self]

/-- The whole expansion preserves the number of greater-than signs. -/
theorem escapeHtmlList_count_gt (l : List Char) :
    (escapeHtmlList l).count '>' = l.count '>' := by
  induction l with
  | nil => rfl
  | cons c rest ih =>
      simp only [escapeHtmlList, List.count_append, ih, escapeChar_count_gt,
        List.count_cons]
      by_cases h : c = '>'
      · simp [h]
        omega
      · simp [h]

/-- C9 amended: escapeHtml replaces every occurrence of the seven class
characters by its entity and leaves every other character unchanged; the
output therefore contains no raw occurrence of the six characters other
than the ampersand, while raw ampersands do occur in the output as the
lead character of emitted entities, and the greater-than sign (whose map
entry is unreachable) passes through, its count being preserved. -/
theorem c9_amended (s : String) :
    ((escapeHtml s).toList.all (fun x => !(sixRawChars.contains x))) = true ∧
    (escapeHtml s).toList.count '>' = s.toList.count '>' ∧
    escapeChar '&' = "&amp;" ∧ escapeChar '<' = "&lt;" ∧
    escapeChar '"' = "&quot;" ∧ escapeChar (Char.ofNat 39) = "&#39;" ∧
    escapeChar '/' = "&#47;" ∧ escapeChar (Char.ofNat 96) = "&#96;" ∧
    escapeChar '=' = "&#61;" ∧
    (∀ c : Char, c ∈ classChars ∨ escapeChar c = String.singleton c) := by
  refine ⟨escapeHtmlList_no_sixRaw s.toList, escapeHtmlList_count_gt s.toList,
    by decide, by decide, by decide, by decide, by decide, by decide, by decide, ?_⟩
  intro c
  by_cases h1 : c = '&'
  · exact Or.inl (by rw [h1]; decide)
  by_cases h2 : c = '<'
  · exact Or.inl (by rw [h2]; decide)
  by_cases h3 : c = '"'
  · exact Or.inl (by rw [h3]; decide)
  by_cases h4 : c = Char.ofNat 39
  · exact Or.inl (by rw [h4]; decide)
  by_cases h5 : c = '/'
  · exact Or.inl (by rw [h5]; decide)
  by_cases h6 : c = Char.ofNat 96
  · exact Or.inl (by rw [h6]; decide)
  by_cases h7 : c = '='
  · exact Or.inl (by rw [h7]; decide)
  refine Or.inr ?_
  unfold escapeChar
  rw [if_neg h1, if_neg h2, if_neg h3, if_neg h4, if_neg h5, if_neg h6, if_neg h7]

/-- dropWhile is idempotent. -/
theorem dropWhile_dropWhile (p : Char → Bool) (l : List Char) :
    (l.dropWhile p).dropWhile p = l.dropWhile p := by
  induction l with
  | nil => rfl
  | cons c rest ih =>
      by_cases h : p c = true
      · simp [List.dropWhile_cons, h, ih]
      · simp [List.dropWhile_cons, h]

/-- Dropping a prefix cannot lengthen a list. -/
theorem dropWhile_length_le (p : Char → Bool) (l : List Char) :
    (l.dropWhile p).length ≤ l.length := by
  induction l with
  | nil => exact Nat.le_refl 0
  | cons c rest ih =>
      by_cases h : p c = true
      · rw [List.dropWhile_cons_of_pos h]
        exact Nat.le_trans ih (Nat.le_succ rest.length)
      · rw [List.dropWhile_cons_of_neg (by simpa using h)]

/-- A nonempty list fixed by dropWhile has a head failing the predicate. -/
theorem dropWhile_fixed_head (p : Char → Bool) (b : Char) (rest : List Char)
    (h : (b :: rest).dropWhile p = b :: rest) : p b = false := by
  by_cases hb : p b = true
  · exfalso
    rw [List.dropWhile_cons, if_pos hb] at h
    have hl := congrArg List.length h
    have hle := dropWhile_length_le p rest
    simp only [List.length_cons] at hl
    omega
  · simpa using hb

/-- Every list is its right-trimmed part followed by the trimmed-away
whitespace suffix. -/
theorem right_trim_decomp (p : Char → Bool) (l : List Char) :
    l = (l.reverse.dropWhile p).reverse ++ (l.reverse.takeWhile p).reverse := by
  conv_lhs =>
    rw [← List.reverse_reverse l, ← List.takeWhile_append_dropWhile (p := p) (l := l.reverse),
      List.reverse_append]

/-- JavaScript trim is idempotent. -/
theorem jsTrim_idem (s : String) : jsTrim (jsTrim s) = jsTrim s := by
  unfold jsTrim
  show String.mk
      ((((((s.toList.dropWhile Char.isWhitespace).reverse.dropWhile
            Char.isWhitespace).reverse).dropWhile
          Char.isWhitespace).reverse.dropWhile Char.isWhitespace).reverse)
    = String.mk
        (((s.toList.dropWhile Char.isWhitespace).reverse.dropWhile
          Char.isWhitespace).reverse)
  have hB : (((s.toList.dropWhile Char.isWhitespace).reverse.dropWhile
        Char.isWhitespace).reverse).dropWhile Char.isWhitespace
      = ((s.toList.dropWhile Char.isWhitespace).reverse.dropWhile
          Char.isWhitespace).reverse := by
    cases hcase : ((s.toList.dropWhile Char.isWhitespace).reverse.dropWhile
        Char.isWhitespace).reverse with
    | nil => rfl
    | cons b bs =>
        have hA : s.toList.dropWhile Char.isWhitespace
            = b :: (bs ++ ((s.toList.dropWhile Char.isWhitespace).reverse.takeWhile
                Char.isWhitespace).reverse) := by
          conv_lhs => rw [right_trim_decomp Char.isWhitespace
            (s.toList.dropWhile Char.isWhitespace)]
          rw [hcase]
          rfl
        have hAfix : (s.toList.dropWhile Char.isWhitespace).dropWhile Char.isWhitespace
            = s.toList.dropWhile Char.isWhitespace :=
          dropWhile_dropWhile Char.isWhitespace s.toList
        rw [hA] at hAfix
        have hpb := dropWhile_fixed_head Char.isWhitespace b _ hAfix
        rw [List.dropWhile_cons, if_neg (by simp [hpb])]
  rw [hB, List.reverse_reverse, dropWhile_dropWhile]

/-- The text component of any parsed question is a member of the trimmed
candidate list. -/
theorem text_mem_of_mem_enumFrom (l : List String) :
    ∀ (k : Nat) (q : Question),
      q ∈ (List.enumFrom k l).map (fun iq => Question.mk (iq.1 + 1) iq.2) →
      q.text ∈ l := by
  induction l with
  | nil =>
      intro k q h
      simp [List.enumFrom] at h
  | cons a rest ih =>
      intro k q h
      simp only [List.enumFrom, List.map] at h
      rcases List.mem_cons.mp h with rfl | hmem
      · exact List.mem_cons_self a rest
      · exact List.mem_cons_of_mem a (ih (k + 1) q hmem)

/-- The qid assigned at position i of the enumeration started at k is
k plus i plus one. -/
theorem enumFrom_map_qid (l : List String) :
    ∀ (k i : Nat) (q : Question),
      ((List.enumFrom k l).map (fun iq => Question.mk (iq.1 + 1) iq.2)).get? i
          = some q →
      q.qid = k + i + 1 := by
  induction l with
  | nil =>
      intro k i q h
      simp [List.enumFrom] at h
  | cons a rest ih =>
      intro k i q h
      cases i with
      | zero =>
          simp only [List.enumFrom, List.map, List.get?_cons_zero,
            Option.some.injEq] at h
          rw [← h]
      | succ j =>
          simp only [List.enumFrom, List.map, List.get?_cons_succ] at h
          have := ih (k + 1) j q h
          omega

/-- C10: the selected-questions list built by useGeneratedPaper has length
at most the parsed numQuestions value, every question text in it is trimmed
and longer than twenty characters, and each question carries a qid equal to
its one-based position. -/
theorem c10_selected_questions (content : String) (numQuestions : Nat) :
    (useGeneratedPaper content numQuestions).length ≤ numQuestions ∧
    (∀ q ∈ useGeneratedPaper content numQuestions,
        jsTrim q.text = q.text ∧ 20 < q.text.length) ∧
    (∀ (i : Nat) (q : Question),
        (useGeneratedPaper content numQuestions).get? i = some q →
        q.qid = i + 1) := by
  refine ⟨?_, ?_, ?_⟩
  · simp only [useGeneratedPaper, List.length_map, List.enum_length,
      List.length_take]
    omega
  · intro q hq
    simp only [useGeneratedPaper] at hq
    have htext := text_mem_of_mem_enumFrom _ 0 q hq
    have htext2 := List.mem_of_mem_take htext
    have hfil := List.of_mem_filter htext2
    have hmemmap := List.mem_of_mem_filter htext2
    rcases List.mem_map.mp hmemmap with ⟨raw, hraw, hq2⟩
    constructor
    · rw [← hq2]
      exact jsTrim_idem raw
    · simpa using hfil
  · intro i q h
    simp only [useGeneratedPaper] at h
    have := enumFrom_map_qid _ 0 i q h
    omega

/-- C10 witness: the theorem applied to a concrete one-question paper
content at the default count of ten. -/
theorem c10_witness :
    (useGeneratedPaper
        "Explain the difference between TCP and UDP protocols in detail."
        10).length ≤ 10 ∧
    (jsTrim (Question.mk 1
          "Explain the difference between TCP and UDP protocols in detail.").text
        = (Question.mk 1
            "Explain the difference between TCP and UDP protocols in detail.").text ∧
      20 < (Question.mk 1
          "Explain the difference between TCP and UDP protocols in detail.").text.length) ∧
    (Question.mk 1
        "Explain the difference between TCP and UDP protocols in detail.").qid
      = 0 + 1 :=
  ⟨(c10_selected_questions
      "Explain the difference between TCP and UDP protocols in detail." 10).1,
    (c10_selected_questions
        "Explain the difference between TCP and UDP protocols in detail." 10).2.1
      (Question.mk 1
        "Explain the difference between TCP and UDP protocols in detail.")
      (by decide),
    (c10_selected_questions
        "Explain the difference between TCP and UDP protocols in detail." 10).2.2
      0
      (Question.mk 1
        "Explain the difference between TCP and UDP protocols in detail.")
      (by decide)⟩

end AiInterviewer
